import Mathlib

/-!
Verification of the Ollama-OCR core pipeline
(`src/ollama_ocr/ocr_processor.py`): image normalization, prompt catalog,
model client post-processing, and batch orchestration.

External collaborators (Python `json` module, `cv2`, `pdf2image`,
`requests`, the filesystem) are modelled explicitly: pure library
behaviour (`json.loads` / `json.dumps(indent=2)`) is implemented for the
value subset the code exercises, and effectful collaborators are an
explicit environment of functions plus a threaded file-system state.
-/

/-! ## Model of the Python `json` module (loads / dumps with indent=2)

Values are restricted to null, booleans, integers, strings, arrays and
objects: the subset the OCR post-processing step can meaningfully
round-trip (floating-point literals and \u escapes are out of scope and
are treated as parse failures). -/

inductive Json where
  | null : Json
  | bool (b : Bool) : Json
  | int (n : Int) : Json
  | str (s : String) : Json
  | arr (items : List Json) : Json
  | obj (members : List (String × Json)) : Json

/-- JSON whitespace skipping, as in the Python `json` parser. -/
def skipWs (cs : List Char) : List Char :=
  cs.dropWhile (fun c => c = ' ' ∨ c = '\t' ∨ c = '\n' ∨ c = '\r')

/-- Decode the remainder of a JSON string literal (after the opening
quote), handling the simple escapes; `\u` escapes fail the parse. -/
def parseStrChars : List Char → Option (List Char × List Char)
  | [] => none
  | '"' :: rest => some ([], rest)
  | '\\' :: e :: rest =>
      match parseStrChars rest with
      | none => none
      | some (s, r) =>
          match e with
          | '"' => some ('"' :: s, r)
          | '\\' => some ('\\' :: s, r)
          | '/' => some ('/' :: s, r)
          | 'n' => some ('\n' :: s, r)
          | 't' => some ('\t' :: s, r)
          | 'r' => some ('\r' :: s, r)
          | 'b' => some ('\x08' :: s, r)
          | 'f' => some ('\x0c' :: s, r)
          | _ => none
  | c :: rest =>
      match parseStrChars rest with
      | none => none
      | some (s, r) => some (c :: s, r)

/-- Decode a JSON integer literal; a following `.`, `e` or `E`
(a float literal, outside the modelled subset) fails the parse. -/
def parseIntLit (cs : List Char) : Option (Int × List Char) :=
  let (neg, cs1) :=
    match cs with
    | '-' :: rest => (true, rest)
    | _ => (false, cs)
  let digits := cs1.takeWhile Char.isDigit
  let rest := cs1.dropWhile Char.isDigit
  if digits.isEmpty then none
  else
    match rest with
    | '.' :: _ => none
    | 'e' :: _ => none
    | 'E' :: _ => none
    | _ =>
        let n : Nat := digits.foldl (fun acc c => 10 * acc + (c.toNat - 48)) 0
        some (if neg then -(n : Int) else (n : Int), rest)

mutual

/-- Recursive-descent JSON value parser (fuel-indexed). -/
def parseVal : Nat → List Char → Option (Json × List Char)
  | 0, _ => none
  | fuel + 1, cs =>
      match skipWs cs with
      | 'n' :: 'u' :: 'l' :: 'l' :: r => some (.null, r)
      | 't' :: 'r' :: 'u' :: 'e' :: r => some (.bool true, r)
      | 'f' :: 'a' :: 'l' :: 's' :: 'e' :: r => some (.bool false, r)
      | '"' :: r =>
          match parseStrChars r with
          | none => none
          | some (s, rest) => some (.str (String.mk s), rest)
      | '[' :: r =>
          match skipWs r with
          | ']' :: rest => some (.arr [], rest)
          | _ =>
              match parseItems fuel r with
              | none => none
              | some (items, rest) => some (.arr items, rest)
      | '\x7b' :: r =>
          match skipWs r with
          | '\x7d' :: rest => some (.obj [], rest)
          | _ =>
              match parseMembers fuel r with
              | none => none
              | some (ms, rest) => some (.obj ms, rest)
      | other =>
          match parseIntLit other with
          | none => none
          | some (n, rest) => some (.int n, rest)

/-- Parse the items of a non-empty JSON array, up to and including the
closing bracket. -/
def parseItems : Nat → List Char → Option (List Json × List Char)
  | 0, _ => none
  | fuel + 1, cs =>
      match parseVal fuel cs with
      | none => none
      | some (v, r) =>
          match skipWs r with
          | ',' :: r2 =>
              match parseItems fuel r2 with
              | none => none
              | some (vs, rest) => some (v :: vs, rest)
          | ']' :: rest => some ([v], rest)
          | _ => none

/-- Parse the members of a non-empty JSON object, up to and including
the closing brace. -/
def parseMembers : Nat → List Char → Option (List (String × Json) × List Char)
  | 0, _ => none
  | fuel + 1, cs =>
      match skipWs cs with
      | '"' :: r =>
          match parseStrChars r with
          | none => none
          | some (k, r1) =>
              match skipWs r1 with
              | ':' :: r2 =>
                  match parseVal fuel r2 with
                  | none => none
                  | some (v, r3) =>
                      match skipWs r3 with
                      | ',' :: r4 =>
                          match parseMembers fuel r4 with
                          | none => none
                          | some (ms, rest) => some ((String.mk k, v) :: ms, rest)
                      | '\x7d' :: rest => some ([(String.mk k, v)], rest)
                      | _ => none
              | _ => none
      | _ => none

end

/-- Model of Python `json.loads`: parse a complete document, allowing
trailing whitespace only. -/
def jsonLoads (s : String) : Option Json :=
  match parseVal (s.length + 1) s.data with
  | none => none
  | some (v, rest) => if (skipWs rest).isEmpty then some v else none

/-- Escape one character for JSON string output (the common escapes the
modelled subset needs). -/
def escChar (c : Char) : String :=
  if c = '"' then "\\\""
  else if c = '\\' then "\\\\"
  else if c = '\n' then "\\n"
  else if c = '\t' then "\\t"
  else if c = '\r' then "\\r"
  else String.singleton c

/-- Serialize a string as a quoted JSON string literal. -/
def quoteStr (s : String) : String :=
  "\"" ++ String.join (s.data.map escChar) ++ "\""

/-- Indentation for `json.dumps(..., indent=2)`: two spaces per level. -/
def indentStr (lvl : Nat) : String :=
  String.mk (List.replicate (2 * lvl) ' ')

mutual

/-- Model of Python `json.dumps(v, indent=2)` at a given nesting level. -/
def dumpsVal : Json → Nat → String
  | .null, _ => "null"
  | .bool true, _ => "true"
  | .bool false, _ => "false"
  | .int n, _ => toString n
  | .str s, _ => quoteStr s
  | .arr [], _ => "[]"
  | .arr (v :: vs), lvl =>
      "[\n" ++ dumpsItems (v :: vs) (lvl + 1) ++ "\n" ++ indentStr lvl ++ "]"
  | .obj [], _ => "\x7b\x7d"
  | .obj (m :: ms), lvl =>
      "\x7b\n" ++ dumpsMembers (m :: ms) (lvl + 1) ++ "\n" ++ indentStr lvl ++ "\x7d"

/-- Comma-and-newline separated array items, each indented. -/
def dumpsItems : List Json → Nat → String
  | [], _ => ""
  | [v], lvl => indentStr lvl ++ dumpsVal v lvl
  | v :: v2 :: vs, lvl =>
      indentStr lvl ++ dumpsVal v lvl ++ ",\n" ++ dumpsItems (v2 :: vs) lvl

/-- Comma-and-newline separated object members, each indented. -/
def dumpsMembers : List (String × Json) → Nat → String
  | [], _ => ""
  | [(k, v)], lvl => indentStr lvl ++ quoteStr k ++ ": " ++ dumpsVal v lvl
  | (k, v) :: m2 :: ms, lvl =>
      indentStr lvl ++ quoteStr k ++ ": " ++ dumpsVal v lvl ++ ",\n" ++
        dumpsMembers (m2 :: ms) lvl

end

/-- `json.dumps(v, indent=2)` as called at ocr_processor.py line 140. -/
def pyDumpsIndent2 (v : Json) : String := dumpsVal v 0

/-! ## Prompt Catalog (ocr_processor.py lines 88-119)

The five fixed instruction strings of the `prompts` dict, transcribed
with the triple-quoted literals' indentation, and the lookup
`prompts.get(format_type, prompts["text"])`. -/

def markdownPrompt : String :=
  "Please look at this image and extract all the text content. Format the output in markdown:\n                - Use headers (# ## ###) for titles and sections\n                - Use bullet points (-) for lists\n                - Use proper markdown formatting for emphasis and structure\n                - Preserve the original text hierarchy and formatting as much as possible"

def textPrompt : String :=
  "Please look at this image and extract all the text content. \n                Provide the output as plain text, maintaining the original layout and line breaks where appropriate.\n                Include all visible text from the image."

def jsonPrompt : String :=
  "Please look at this image and extract all the text content. Structure the output as JSON with these guidelines:\n                - Identify different sections or components\n                - Use appropriate keys for different text elements\n                - Maintain the hierarchical structure of the content\n                - Include all visible text from the image"

def structuredPrompt : String :=
  "Please look at this image and extract all the text content, focusing on structural elements:\n                - Identify and format any tables\n                - Extract lists and maintain their structure\n                - Preserve any hierarchical relationships\n                - Format sections and subsections clearly"

def keyValuePrompt : String :=
  "Please look at this image and extract text that appears in key-value pairs:\n                - Look for labels and their associated values\n                - Extract form fields and their contents\n                - Identify any paired information\n                - Present each pair on a new line as \x27key: value\x27"

/-- The `prompts` dict literal (insertion order of the source). -/
def prompts : List (String × String) :=
  [("markdown", markdownPrompt),
   ("text", textPrompt),
   ("json", jsonPrompt),
   ("structured", structuredPrompt),
   ("key_value", keyValuePrompt)]

/-- `prompts.get(format_type, prompts["text"])` (line 119); the
`"text"` entry of the dict is `textPrompt`. -/
def promptFor (fmt : String) : String :=
  (prompts.lookup fmt).getD textPrompt

/-! ## File-system and environment model

Effectful collaborators are an environment of functions; the files the
pipeline writes and removes are a threaded association list from path to
content, with Python's overwrite-on-assignment semantics. -/

/-- Python `str.endswith` (also the suffix semantics of a glob pattern
`*{ext}`). -/
def strEndsWith (s suffix : String) : Bool :=
  suffix.data.isSuffixOf s.data

/-- Python `str.lower` on the ASCII paths the code handles. -/
def strToLower (s : String) : String :=
  ⟨s.data.map Char.toLower⟩

/-- Contents of a file the pipeline wrote: the rasterized first PDF page
(`pages[0].save(temp_path, 'JPEG')`) or an encoded enhanced image
(`cv2.imwrite`). Pages and decoded images are abstract tokens. -/
inductive FileData where
  | pdfPage (pg : Nat) : FileData
  | image (img : Nat) : FileData
deriving DecidableEq

/-- The tracked file system: path-keyed file contents. -/
abbrev FS := List (String × FileData)

/-- Write a file: overwrite the entry when the path exists, append
otherwise (Python file-write / dict-assignment semantics). -/
def upsert (m : List (String × α)) (k : String) (v : α) : List (String × α) :=
  if m.any (fun kv => kv.1 == k) then
    m.map (fun kv => if kv.1 == k then (k, v) else kv)
  else m ++ [(k, v)]

/-- `os.remove`: delete the entry at the path. -/
def removeFile (fs : FS) (p : String) : FS :=
  fs.filter (fun kv => kv.1 ≠ p)

/-- HTTP response: status code plus the parsed JSON body restricted to
the string-valued fields the code reads (`response.json()` raising on an
unparseable body is the error side). -/
structure HttpResp where
  status : Nat
  jsonBody : Except String (List (String × String))

/-- The request payload of line 122-127:
model, prompt, stream=False, one base64 image. -/
structure Payload where
  model : String
  prompt : String
  image : String
deriving DecidableEq

/-- Environment of external collaborators, each keyed by the inputs the
code passes it; failures are the error messages of the exceptions the
collaborator raises. -/
structure Env where
  /-- `pdf2image.convert_from_path`: the pages of a PDF, or a raised error. -/
  convertFromPath : String → Except String (List Nat)
  /-- `cv2.imread`: a decoded image token, or `None` on failure. -/
  imread : String → Option Nat
  /-- The cv2 grayscale/CLAHE/denoise chain applied to a decoded image. -/
  enhance : Nat → Nat
  /-- `open(path,"rb")` + `base64.b64encode(...).decode()`, or a raised
  error (e.g. FileNotFoundError). -/
  readFileB64 : String → Except String String
  /-- `requests.post(base_url, json=payload)`: a response, or a raised
  transport error. -/
  http : String → Payload → Except String HttpResp
  /-- `Path(p).is_dir()` with the directory contents when it is one. -/
  isDir : String → Option (List (List String × String))

/-- The `OCRProcessor` constructor state (model name, endpoint,
worker-pool size). -/
structure OCRProc where
  model_name : String
  base_url : String
  max_workers : Nat

/-! ## Image Normalizer: `_preprocess_image` (lines 26-66) -/

/-- `_preprocess_image`: PDF first-page rasterization to
`{path}_temp.jpg`, decode, enhance, save to `{path}_preprocessed.jpg`;
returns the preprocessed path or the raised error, with the updated
file system. -/
def preprocessImage (env : Env) (fs : FS) (image_path : String) :
    Except String String × FS :=
  -- lines 35-42: PDF handling
  let pdfStep : Except String (String × FS) :=
    if strEndsWith (strToLower image_path) ".pdf" then
      match env.convertFromPath image_path with
      | .error e => .error e
      | .ok [] => .error "Could not convert PDF to image"
      | .ok (p :: _) =>
          let temp_path := image_path ++ "_temp.jpg"
          .ok (temp_path, upsert fs temp_path (.pdfPage p))
    else .ok (image_path, fs)
  match pdfStep with
  | .error e => (.error e, fs)
  | .ok (ip, fs1) =>
      -- lines 44-47: cv2.imread, None check
      match env.imread ip with
      | none => (.error ("Could not read image at " ++ ip), fs1)
      | some img =>
          -- lines 49-64: grayscale, CLAHE, denoise, imwrite
          let denoised := env.enhance img
          let preprocessed_path := ip ++ "_preprocessed.jpg"
          (.ok preprocessed_path,
            upsert fs1 preprocessed_path (.image denoised))

/-! ## `process_image` (lines 68-147) -/

/-- Lines 77-85 of `process_image`: optional preprocessing, base64
encoding, and removal of the current path when it ends in
`_preprocessed.jpg` or `_temp.jpg` (`os.remove` raises when the file
does not exist). Returns the base64 payload or the raised error. -/
def getEncodedAndClean (env : Env) (fs : FS) (image_path : String)
    (preprocess : Bool) : Except String String × FS :=
  let step1 : Except String String × FS :=
    if preprocess then preprocessImage env fs image_path
    else (.ok image_path, fs)
  match step1 with
  | (.error e, fs1) => (.error e, fs1)
  | (.ok ip, fs1) =>
      match env.readFileB64 ip with
      | .error e => (.error e, fs1)
      | .ok b64 =>
          if strEndsWith ip "_preprocessed.jpg" || strEndsWith ip "_temp.jpg" then
            if fs1.any (fun kv => kv.1 == ip) then
              (.ok b64, removeFile fs1 ip)
            else
              (.error ("No such file or directory: " ++ ip), fs1)
          else (.ok b64, fs1)

/-- Lines 119-133: build the payload, POST it, `raise_for_status`
(raises for 4xx and 5xx), parse the body, read `"response"` with
default `""`. -/
def callBackend (self : OCRProc) (env : Env) (fmt : String) (b64 : String) :
    Except String String :=
  let payload : Payload := ⟨self.model_name, promptFor fmt, b64⟩
  match env.http self.base_url payload with
  | .error e => .error e
  | .ok resp =>
      if 400 ≤ resp.status ∧ resp.status < 600 then
        .error (toString resp.status ++ " Error for url: " ++ self.base_url)
      else
        match resp.jsonBody with
        | .error e => .error e
        | .ok body => .ok ((body.lookup "response").getD "")

/-- Lines 135-145: format-specific post-processing. For `"json"`, parse
and re-serialize with 2-space indent, falling back to the raw text on a
parse failure; every other format returns the raw text verbatim. -/
def formatResult (fmt : String) (result : String) : String :=
  if fmt = "json" then
    match jsonLoads result with
    | some v => pyDumpsIndent2 v
    | none => result
  else result

/-- The `try`-block body of `process_image` (lines 77-145). -/
def processImageAux (self : OCRProc) (env : Env) (fs : FS)
    (image_path : String) (fmt : String) (preprocess : Bool) :
    Except String String × FS :=
  match getEncodedAndClean env fs image_path preprocess with
  | (.error e, fs1) => (.error e, fs1)
  | (.ok b64, fs1) =>
      match callBackend self env fmt b64 with
      | .error e => (.error e, fs1)
      | .ok raw => (.ok (formatResult fmt raw), fs1)

/-- `process_image` (lines 68-147): the try-block result, with every
raised exception converted to the `"Error processing image: "` string
(lines 146-147). -/
def processImage (self : OCRProc) (env : Env) (fs : FS)
    (image_path : String) (fmt : String) (preprocess : Bool) :
    String × FS :=
  match processImageAux self env fs image_path fmt preprocess with
  | (.ok s, fs1) => (s, fs1)
  | (.error e, fs1) => ("Error processing image: " ++ e, fs1)

/-! ## Batch Orchestrator: `process_batch` (lines 149-208) -/

/-- An entry of a directory listing: the subdirectory components
(relative to the base directory, empty at the top level) paired with the
entry name. -/
abbrev DirEntry := List String × String

/-- The extension list of line 174. -/
def imageExts : List String := [".png", ".jpg", ".jpeg", ".pdf", ".tiff"]

/-- `base_path.glob(f'{pattern}{ext}')` where `pattern` is
`'**/*'` when recursive and `'*'` otherwise: entries whose name ends
with `ext`, restricted to the top level in the non-recursive case. -/
def globMatch (entries : List DirEntry) (recursive : Bool) (ext : String) :
    List DirEntry :=
  entries.filter (fun e =>
    strEndsWith e.2 ext && (recursive || e.1.isEmpty))

/-- Lines 174-175: extend `image_paths` by each extension's glob in
list order. -/
def dirMatches (entries : List DirEntry) (recursive : Bool) : List DirEntry :=
  imageExts.flatMap (globMatch entries recursive)

/-- `str(path)` for a globbed entry: the base directory joined with the
entry's components. -/
def fullPath (base : String) (e : DirEntry) : String :=
  base ++ "/" ++ String.intercalate "/" (e.1 ++ [e.2])

/-- `input_path: Union[str, List[str]]`. -/
inductive BatchInput where
  | single (path : String) : BatchInput
  | listOf (paths : List String) : BatchInput

/-- Lines 168-179: collect the image paths. A directory is expanded by
the extension globs; any other single string is a one-item batch; an
explicit list is used verbatim. -/
def collectPaths (env : Env) (input : BatchInput) (recursive : Bool) :
    List String :=
  match input with
  | .single p =>
      match env.isDir p with
      | some entries => (dirMatches entries recursive).map (fullPath p)
      | none => [p]
  | .listOf ps => ps

/-- Batch statistics (lines 203-207). -/
structure BatchStats where
  total : Nat
  successful : Nat
  failed : Nat
deriving DecidableEq

/-- The `process_batch` report (lines 200-208). -/
structure BatchReport where
  results : List (String × String)
  errors : List (String × String)
  statistics : BatchStats
deriving DecidableEq

/-- Lines 185-198: one unit of work per collected path; each completed
future stores `future.result()` under `str(path)`. `process_image`
catches every exception and returns instead of raising (lines 77,
146-147), so `future.result()` never raises and the `except` branch of
lines 196-197 never populates `errors`; completion order only permutes
insertion order of path-keyed maps, so the fold is taken in submission
order. The file system threads through the sequentially modelled
executions. -/
def runSubGo (self : OCRProc) (env : Env) (fmt : String) (preprocess : Bool) :
    List String → List (String × String) × FS → List (String × String) × FS
  | [], acc => acc
  | p :: ps, (m, fs) =>
      let (r, fs1) := processImage self env fs p fmt preprocess
      runSubGo self env fmt preprocess ps (upsert m p r, fs1)

/-- The completed submission loop: every path's result collected into
the path-keyed map, starting from empty maps. -/
def runSubmissions (self : OCRProc) (env : Env) (fmt : String)
    (preprocess : Bool) (paths : List String) (fs : FS) :
    List (String × String) × FS :=
  runSubGo self env fmt preprocess paths ([], fs)

/-- `process_batch` (lines 149-208). -/
def processBatch (self : OCRProc) (env : Env) (fs : FS)
    (input : BatchInput) (fmt : String) (recursive : Bool)
    (preprocess : Bool) : BatchReport :=
  let image_paths := collectPaths env input recursive
  let results := (runSubmissions self env fmt preprocess image_paths fs).1
  { results := results
    errors := []
    statistics :=
      { total := image_paths.length
        successful := results.length
        failed := 0 } }

/-- Keys of a path-keyed map. -/
def keysOf (m : List (String × α)) : List String := m.map Prod.fst

/-! ## Concrete instances used to evaluate the model -/

/-- The constructor defaults of `OCRProcessor.__init__` (lines 13-19). -/
def procC : OCRProc :=
  ⟨"llama3.2-vision:11b", "http://localhost:11434/api/generate", 1⟩

/-- A benign environment: no PDFs, every decode/read/backend step
succeeds, the backend answers "TEXT", no directory paths. -/
def envBase : Env :=
  { convertFromPath := fun _ => .error "not a pdf"
    imread := fun _ => some 0
    enhance := id
    readFileB64 := fun _ => .ok "IMGB64"
    http := fun _ _ => .ok ⟨200, .ok [("response", "TEXT")]⟩
    isDir := fun _ => none }

/-- A directory listing of three valid images and one corrupt file. -/
def dirC : List DirEntry := [([], "a.png"), ([], "b.png"), ([], "c.png"), ([], "bad.png")]

/-- `envBase` with directory `d` holding `dirC`, where `d/bad.png`
fails to decode (a corrupt file). -/
def envC : Env :=
  { envBase with
    imread := fun p => if p = "d/bad.png" then none else some 0
    isDir := fun p => if p = "d" then some dirC else none }

/-- An environment where every file read raises FileNotFoundError. -/
def envErr : Env :=
  { envBase with
    readFileB64 := fun p => .error ("No such file or directory: " ++ p) }

/-- A success response whose JSON body has no "response" field. -/
def resp9 : HttpResp := ⟨200, .ok [("model", "m")]⟩

/-- `envBase` with a backend answering `resp9`. -/
def env9 : Env := { envBase with http := fun _ _ => .ok resp9 }

/-- A success response whose "response" text is the JSON `{"a":1}`. -/
def respJ : HttpResp := ⟨200, .ok [("response", "\x7b\"a\":1\x7d")]⟩

/-- `envBase` with a backend answering `respJ`. -/
def envJ : Env := { envBase with http := fun _ _ => .ok respJ }

/-- `envBase` where `doc.pdf` is a one-page PDF and every later step
succeeds. -/
def envP : Env :=
  { envBase with
    convertFromPath := fun p => if p = "doc.pdf" then .ok [7] else .error "no pdf"
    imread := fun _ => some 1 }

/-- `envBase` where every PDF converts to zero pages. -/
def envZ : Env := { envBase with convertFromPath := fun _ => .ok [] }

/-- A directory whose only image sits in a subdirectory. -/
def dirSub : List DirEntry := [(["sub"], "img.png")]

/-- `envBase` with directory `d` holding `dirSub`. -/
def envSub : Env :=
  { envBase with isDir := fun p => if p = "d" then some dirSub else none }

/-- A directory whose files differ from the extension set only in
letter case. -/
def dirK : List DirEntry := [([], "IMAGE.PNG"), ([], "scan.JPG"), ([], "doc.Pdf")]

/-- `envBase` with directory `d` holding `dirK`. -/
def envK : Env :=
  { envBase with isDir := fun p => if p = "d" then some dirK else none }

/-! ## Helper lemmas -/

lemma formatResult_empty (fmt : String) : formatResult fmt "" = "" := by
  unfold formatResult
  have h : jsonLoads "" = none := rfl
  rw [h]
  split <;> rfl

lemma any_beq_iff (m : List (String × α)) (k : String) :
    (m.any (fun kv => kv.1 == k)) = true ↔ k ∈ keysOf m := by
  unfold keysOf
  rw [List.any_eq_true]
  constructor
  · rintro ⟨kv, hkv, hbeq⟩
    exact eq_of_beq hbeq ▸ List.mem_map_of_mem Prod.fst hkv
  · intro h
    rcases List.mem_map.mp h with ⟨kv, hkv, hfst⟩
    exact ⟨kv, hkv, beq_of_eq hfst⟩

lemma keysOf_upsert (m : List (String × α)) (k : String) (v : α) :
    keysOf (upsert m k v) = if k ∈ keysOf m then keysOf m else keysOf m ++ [k] := by
  unfold upsert
  by_cases h : k ∈ keysOf m
  · rw [if_pos ((any_beq_iff m k).mpr h), if_pos h]
    unfold keysOf
    rw [List.map_map]
    refine List.map_congr_left ?_
    intro kv _
    by_cases hk : kv.1 = k
    · simp [Function.comp, hk]
    · simp [Function.comp, hk]
  · rw [if_neg (fun hc => h ((any_beq_iff m k).mp hc)), if_neg h]
    simp [keysOf]

lemma length_upsert (m : List (String × α)) (k : String) (v : α) :
    (upsert m k v).length = if k ∈ keysOf m then m.length else m.length + 1 := by
  unfold upsert
  by_cases h : k ∈ keysOf m
  · rw [if_pos ((any_beq_iff m k).mpr h), if_pos h, List.length_map]
  · rw [if_neg (fun hc => h ((any_beq_iff m k).mp hc)), if_neg h]
    simp

lemma mem_keysOf_upsert_self (m : List (String × α)) (k : String) (v : α) :
    k ∈ keysOf (upsert m k v) := by
  rw [keysOf_upsert]
  by_cases h : k ∈ keysOf m
  · rwa [if_pos h]
  · rw [if_neg h]; exact List.mem_append_right _ (List.mem_singleton.mpr rfl)

lemma mem_keysOf_upsert_of_mem (m : List (String × α)) (k q : String) (v : α)
    (h : q ∈ keysOf m) : q ∈ keysOf (upsert m k v) := by
  rw [keysOf_upsert]
  by_cases hk : k ∈ keysOf m
  · rwa [if_pos hk]
  · rw [if_neg hk]; exact List.mem_append_left _ h

lemma runSubGo_length (self : OCRProc) (env : Env) (fmt : String) (pre : Bool) :
    ∀ (ps : List String) (m : List (String × String)) (fs : FS),
      ps.Nodup → (∀ p ∈ ps, p ∉ keysOf m) →
      (runSubGo self env fmt pre ps (m, fs)).1.length = m.length + ps.length := by
  intro ps
  induction ps with
  | nil => intro m fs _ _; rfl
  | cons p ps ih =>
      intro m fs hnd hfresh
      rw [runSubGo]
      cases hpi : processImage self env fs p fmt pre with
      | mk r fs1 =>
          have hpm : p ∉ keysOf m := hfresh p (List.mem_cons_self p ps)
          have hlen : (upsert m p r).length = m.length + 1 := by
            rw [length_upsert, if_neg hpm]
          have hfresh' : ∀ q ∈ ps, q ∉ keysOf (upsert m p r) := by
            intro q hq hmem
            rw [keysOf_upsert, if_neg hpm] at hmem
            rcases List.mem_append.mp hmem with h | h
            · exact hfresh q (List.mem_cons_of_mem p hq) h
            · exact (List.nodup_cons.mp hnd).1 (List.mem_singleton.mp h ▸ hq)
          simp only [hpi]
          rw [ih (upsert m p r) fs1 (List.nodup_cons.mp hnd).2 hfresh', hlen,
            List.length_cons]
          omega

lemma runSubGo_keys_mem (self : OCRProc) (env : Env) (fmt : String) (pre : Bool) :
    ∀ (ps : List String) (m : List (String × String)) (fs : FS) (q : String),
      (q ∈ keysOf m ∨ q ∈ ps) →
      q ∈ keysOf (runSubGo self env fmt pre ps (m, fs)).1 := by
  intro ps
  induction ps with
  | nil =>
      intro m fs q h
      rcases h with h | h
      · exact h
      · exact absurd h (List.not_mem_nil q)
  | cons p ps ih =>
      intro m fs q h
      rw [runSubGo]
      cases hpi : processImage self env fs p fmt pre with
      | mk r fs1 =>
          simp only [hpi]
          refine ih (upsert m p r) fs1 q ?_
          rcases h with h | h
          · exact Or.inl (mem_keysOf_upsert_of_mem m p q r h)
          · rcases List.mem_cons.mp h with h | h
            · exact Or.inl (h ▸ mem_keysOf_upsert_self m p r)
            · exact Or.inr h

/-! ## Claims -/

/-- C2: for every input (any path, any format, either preprocess flag),
`process_image` is a total string-returning function; whenever any
internal step of the try-block fails with message `e`, it returns
exactly the string "Error processing image: " followed by `e`. -/
theorem c2_process_image_never_raises (self : OCRProc) (env : Env) (fs : FS)
    (image_path fmt : String) (pre : Bool) (e : String)
    (h : (processImageAux self env fs image_path fmt pre).1 = .error e) :
    (processImage self env fs image_path fmt pre).1 =
      "Error processing image: " ++ e := by
  unfold processImage
  cases haux : processImageAux self env fs image_path fmt pre with
  | mk r fs1 =>
      rw [haux] at h
      cases r with
      | ok s => simp at h
      | error e' => simp_all

/-- C2 witness: on a nonexistent path (every file read raises
FileNotFoundError), `process_image` returns the error string. -/
theorem c2_witness :
    (processImage procC envErr [] "missing.png" "markdown" false).1 =
      "Error processing image: No such file or directory: missing.png" :=
  c2_process_image_never_raises procC envErr [] "missing.png" "markdown" false
    "No such file or directory: missing.png" rfl

/-- C6: an unknown format string selects the same instruction as
"text" (a non-error fallback), and each of the five catalog keys
selects its fixed instruction. -/
theorem c6_prompt_catalog :
    (∀ fmt, fmt ∉ ["markdown", "text", "json", "structured", "key_value"] →
      promptFor fmt = promptFor "text") ∧
    promptFor "markdown" = markdownPrompt ∧ promptFor "text" = textPrompt ∧
    promptFor "json" = jsonPrompt ∧ promptFor "structured" = structuredPrompt ∧
    promptFor "key_value" = keyValuePrompt := by
  refine ⟨fun fmt h => ?_, rfl, rfl, rfl, rfl, rfl⟩
  simp only [List.mem_cons, List.not_mem_nil, or_false, not_or] at h
  obtain ⟨h1, h2, h3, h4, h5⟩ := h
  show (prompts.lookup fmt).getD textPrompt = promptFor "text"
  have hl : prompts.lookup fmt = none := by
    simp only [prompts, List.lookup]
    rw [show (fmt == "markdown") = false from beq_eq_false_iff_ne.mpr h1,
      show (fmt == "text") = false from beq_eq_false_iff_ne.mpr h2,
      show (fmt == "json") = false from beq_eq_false_iff_ne.mpr h3,
      show (fmt == "structured") = false from beq_eq_false_iff_ne.mpr h4,
      show (fmt == "key_value") = false from beq_eq_false_iff_ne.mpr h5]
  rw [hl]
  rfl

/-- C6 witness: the unsupported format "html" falls back to the "text"
instruction. -/
theorem c6_witness : promptFor "html" = promptFor "text" :=
  c6_prompt_catalog.1 "html" (by decide)

/-- C5: with format "json", a raw response that parses as JSON is
returned re-serialized with 2-space indentation, an unparseable raw
response is returned unchanged, and any other format returns the raw
response verbatim; and on a successful backend call `process_image`
returns exactly this post-processing of the raw response text. -/
theorem c5_json_postprocessing :
    (∀ raw v, jsonLoads raw = some v →
      formatResult "json" raw = pyDumpsIndent2 v) ∧
    (∀ raw, jsonLoads raw = none → formatResult "json" raw = raw) ∧
    (∀ fmt raw, fmt ≠ "json" → formatResult fmt raw = raw) ∧
    (∀ (self : OCRProc) (env : Env) (fs : FS) (path fmt : String) (pre : Bool)
        (b64 : String) (fs1 : FS) (raw : String),
      getEncodedAndClean env fs path pre = (.ok b64, fs1) →
      callBackend self env fmt b64 = .ok raw →
      (processImage self env fs path fmt pre).1 = formatResult fmt raw) := by
  refine ⟨fun raw v h => ?_, fun raw h => ?_, fun fmt raw h => ?_, ?_⟩
  · unfold formatResult; rw [if_pos rfl, h]
  · unfold formatResult; rw [if_pos rfl, h]
  · unfold formatResult; rw [if_neg h]
  · intro self env fs path fmt pre b64 fs1 raw h1 h2
    unfold processImage processImageAux
    rw [h1]
    dsimp only
    rw [h2]

/-- C5 witness: the concrete behaviours — a backend answering the JSON
text {"a":1} yields the 2-space re-serialization through
`process_image`, invalid JSON is passed through, and a non-json format
is verbatim. -/
theorem c5_witness :
    (processImage procC envJ [] "x.png" "json" false).1 = "\x7b\n  \"a\": 1\n\x7d" ∧
    formatResult "json" "not json" = "not json" ∧
    formatResult "markdown" "raw text" = "raw text" := by
  refine ⟨?_, c5_json_postprocessing.2.1 "not json" rfl,
    c5_json_postprocessing.2.2.1 "markdown" "raw text" (by decide)⟩
  have h := c5_json_postprocessing.2.2.2 procC envJ [] "x.png" "json" false
    "IMGB64" [] "\x7b\"a\":1\x7d" rfl rfl
  rw [h]
  exact (c5_json_postprocessing.1 "\x7b\"a\":1\x7d" (.obj [("a", .int 1)]) rfl).trans rfl

/-- C9: a success-status backend response whose JSON body lacks a
"response" field makes `process_image` return the empty string (not an
error string): the extracted text defaults to "". -/
theorem c9_missing_response_defaults_empty (self : OCRProc) (env : Env)
    (fs : FS) (path fmt : String) (pre : Bool) (b64 : String) (fs1 : FS)
    (resp : HttpResp) (body : List (String × String))
    (h1 : getEncodedAndClean env fs path pre = (.ok b64, fs1))
    (h2 : env.http self.base_url ⟨self.model_name, promptFor fmt, b64⟩ = .ok resp)
    (h3 : resp.status < 400)
    (h4 : resp.jsonBody = .ok body)
    (h5 : body.lookup "response" = none) :
    (processImage self env fs path fmt pre).1 = "" := by
  have hcb : callBackend self env fmt b64 = .ok "" := by
    unfold callBackend
    dsimp only
    rw [h2]
    dsimp only
    rw [if_neg (by omega : ¬(400 ≤ resp.status ∧ resp.status < 600)), h4]
    dsimp only
    rw [h5]
    rfl
  unfold processImage processImageAux
  rw [h1]
  dsimp only
  rw [hcb]
  dsimp only
  exact formatResult_empty fmt

/-- C9 witness: a 200 response with body lacking "response" yields "". -/
theorem c9_witness : (processImage procC env9 [] "x.png" "markdown" false).1 = "" :=
  c9_missing_response_defaults_empty procC env9 [] "x.png" "markdown" false
    "IMGB64" [] resp9 [("model", "m")] rfl rfl (by decide) rfl rfl

/-- C1 counterexample: on a directory of 3 valid images and 1 corrupt
file, `process_batch` does NOT return statistics {total:4, successful:3,
failed:1} and the corrupt path is NOT in the errors map — the failure is
absorbed inside `process_image` before the submission boundary. -/
theorem c1_counterexample :
    ¬((processBatch procC envC [] (.single "d") "markdown" false true).statistics
        = ⟨4, 3, 1⟩ ∧
      "d/bad.png" ∈ keysOf
        (processBatch procC envC [] (.single "d") "markdown" false true).errors) := by
  decide

/-- C1 (amended): the per-item failure is caught inside `process_image`
(lines 146-147) and recorded as an "Error processing image:" string in
`results` under the item's path; the errors map stays empty, so the
3-valid-plus-1-corrupt directory yields statistics {total:4,
successful:4, failed:0} with all four paths (the corrupt one included)
in `results`. -/
theorem c1_amended_failure_lands_in_results :
    (processBatch procC envC [] (.single "d") "markdown" false true).statistics
      = ⟨4, 4, 0⟩ ∧
    (processBatch procC envC [] (.single "d") "markdown" false true).errors = [] ∧
    keysOf (processBatch procC envC [] (.single "d") "markdown" false true).results
      = ["d/a.png", "d/b.png", "d/c.png", "d/bad.png"] ∧
    (processBatch procC envC [] (.single "d") "markdown" false true).results.lookup
      "d/bad.png" = some "Error processing image: Could not read image at d/bad.png" ∧
    (processBatch procC envC [] (.single "d") "markdown" false true).results.lookup
      "d/a.png" = some "TEXT" := by
  decide

/-- C3 counterexample: an explicit list containing the same path twice
is submitted and run twice, but both runs share one `results` key, so
`statistics.total` (2) differs from `|results| + |errors|` (1). -/
theorem c3_counterexample :
    (processBatch procC envC [] (.listOf ["x.png", "x.png"]) "markdown" false
        false).statistics.total = 2 ∧
    (processBatch procC envC [] (.listOf ["x.png", "x.png"]) "markdown" false
        false).results.length +
      (processBatch procC envC [] (.listOf ["x.png", "x.png"]) "markdown" false
        false).errors.length = 1 ∧
    (processBatch procC envC [] (.listOf ["x.png", "x.png"]) "markdown" false
        false).statistics.total ≠
      (processBatch procC envC [] (.listOf ["x.png", "x.png"]) "markdown" false
        false).results.length +
        (processBatch procC envC [] (.listOf ["x.png", "x.png"]) "markdown" false
          false).errors.length := by
  decide

/-- C3 (amended): whenever the stringified discovered paths are
pairwise distinct, `statistics.total = |results| + |errors|` at report
completion and every discovered path appears in `results` and not in
`errors` (exactly one of the two maps); duplicate submissions in an
explicit list run twice but collapse onto one `results` key, making
`total` exceed the sum. -/
theorem c3_total_invariant_distinct_paths (self : OCRProc) (env : Env)
    (fs : FS) (input : BatchInput) (fmt : String) (recursive preprocess : Bool)
    (h : (collectPaths env input recursive).Nodup) :
    (processBatch self env fs input fmt recursive preprocess).statistics.total =
      (processBatch self env fs input fmt recursive preprocess).results.length +
        (processBatch self env fs input fmt recursive preprocess).errors.length ∧
    ∀ p ∈ collectPaths env input recursive,
      p ∈ keysOf (processBatch self env fs input fmt recursive preprocess).results ∧
      p ∉ keysOf (processBatch self env fs input fmt recursive preprocess).errors := by
  have hres :
      (processBatch self env fs input fmt recursive preprocess).results =
        (runSubGo self env fmt preprocess (collectPaths env input recursive)
          ([], fs)).1 := rfl
  have herr :
      (processBatch self env fs input fmt recursive preprocess).errors = [] := rfl
  have htot :
      (processBatch self env fs input fmt recursive preprocess).statistics.total =
        (collectPaths env input recursive).length := rfl
  constructor
  · rw [htot, hres, herr,
      runSubGo_length self env fmt preprocess (collectPaths env input recursive)
        [] fs h (fun p _ hc => absurd hc (List.not_mem_nil p))]
    simp
  · intro p hp
    refine ⟨?_, ?_⟩
    · rw [hres]
      exact runSubGo_keys_mem self env fmt preprocess
        (collectPaths env input recursive) [] fs p (Or.inr hp)
    · rw [herr]
      exact List.not_mem_nil p

/-- C3 witness: the distinct-paths invariant at a concrete two-item
batch. -/
theorem c3_witness :
    (processBatch procC envC [] (.listOf ["a.png", "b.png"]) "markdown" false
        false).statistics.total =
      (processBatch procC envC [] (.listOf ["a.png", "b.png"]) "markdown" false
          false).results.length +
        (processBatch procC envC [] (.listOf ["a.png", "b.png"]) "markdown" false
          false).errors.length :=
  (c3_total_invariant_distinct_paths procC envC [] (.listOf ["a.png", "b.png"])
    "markdown" false false (by decide)).1

/-- C4: the code leaves the rasterized PDF page behind. On a one-page
PDF processed with preprocess enabled where every step succeeds, the
call returns the backend text, yet `doc.pdf_temp.jpg` is still present
after the return — the cleanup of line 84 only ever sees the
`*_preprocessed.jpg` path, so the `*_temp.jpg` intermediate survives the
call, contradicting the required lifetime. -/
theorem c4_pdf_temp_file_survives :
    (processImage procC envP [] "doc.pdf" "markdown" true).1 = "TEXT" ∧
    ("doc.pdf_temp.jpg", FileData.pdfPage 7) ∈
      (processImage procC envP [] "doc.pdf" "markdown" true).2 ∧
    ((processImage procC envP [] "doc.pdf" "markdown" true).2.any
      (fun f => strEndsWith f.1 "_temp.jpg")) = true := by
  decide

/-- C7: input resolution — a non-directory single path is a one-item
batch; a directory expands to exactly the entries whose name ends in
one of the five extensions, restricted to the top level when
non-recursive; an explicit list is used verbatim. -/
theorem c7_input_resolution (env : Env) (recursive : Bool) :
    (∀ p, env.isDir p = none →
      collectPaths env (.single p) recursive = [p]) ∧
    (∀ p entries, env.isDir p = some entries →
      ∀ q, q ∈ collectPaths env (.single p) recursive ↔
        ∃ e, e ∈ entries ∧ q = fullPath p e ∧
          (∃ ext, ext ∈ imageExts ∧ strEndsWith e.2 ext = true) ∧
          (recursive = false → e.1 = [])) ∧
    (∀ ps, collectPaths env (.listOf ps) recursive = ps) := by
  refine ⟨fun p h => by simp [collectPaths, h], fun p entries h q => ?_,
    fun ps => rfl⟩
  simp only [collectPaths, h, List.mem_map, dirMatches, List.mem_flatMap,
    globMatch, List.mem_filter, Bool.and_eq_true, Bool.or_eq_true]
  constructor
  · rintro ⟨e, ⟨ext, hext, hee, hends, hlvl⟩, rfl⟩
    refine ⟨e, hee, rfl, ⟨ext, hext, hends⟩, ?_⟩
    intro hrec
    rw [hrec] at hlvl
    rcases hlvl with hlvl | hlvl
    · exact absurd hlvl (by decide)
    · exact List.isEmpty_iff.mp hlvl
  · rintro ⟨e, hee, rfl, ⟨ext, hext, hends⟩, hlvl⟩
    refine ⟨e, ⟨ext, hext, hee, hends, ?_⟩, rfl⟩
    cases recursive with
    | true => exact Or.inl rfl
    | false => exact Or.inr (List.isEmpty_iff.mpr (hlvl rfl))

/-- C7 witness: a directory whose only image is in a subdirectory
yields an empty batch non-recursively and discovers it recursively; a
list is verbatim; a non-directory path is a one-item batch. -/
theorem c7_witness :
    collectPaths envSub (.single "d") false = [] ∧
    "d/sub/img.png" ∈ collectPaths envSub (.single "d") true ∧
    collectPaths envSub (.listOf ["a.png"]) true = ["a.png"] ∧
    collectPaths envSub (.single "lone.png") false = ["lone.png"] := by
  refine ⟨by decide, ?_, (c7_input_resolution envSub true).2.2 ["a.png"],
    (c7_input_resolution envSub false).1 "lone.png" rfl⟩
  exact ((c7_input_resolution envSub true).2.1 "d" dirSub rfl "d/sub/img.png").mpr
    ⟨(["sub"], "img.png"), by decide, rfl, ⟨".png", by decide, by decide⟩,
      by decide⟩

/-- C8: for a PDF source, a zero-page conversion fails with the
descriptive error "Could not convert PDF to image", and only the first
page is ever used — the result of normalization is unchanged under any
replacement of the pages after the first. -/
theorem c8_pdf_first_page_only (env : Env) (fs : FS) (path : String)
    (hpdf : strEndsWith (strToLower path) ".pdf" = true) :
    (env.convertFromPath path = .ok [] →
      (preprocessImage env fs path).1 = .error "Could not convert PDF to image") ∧
    (∀ p rest rest',
      preprocessImage
        { env with convertFromPath :=
            fun q => if q = path then .ok (p :: rest) else env.convertFromPath q }
        fs path =
      preprocessImage
        { env with convertFromPath :=
            fun q => if q = path then .ok (p :: rest') else env.convertFromPath q }
        fs path) := by
  constructor
  · intro h
    simp [preprocessImage, hpdf, h]
  · intro p rest rest'
    simp [preprocessImage, hpdf]

/-- C8 witness: a zero-page PDF fails normalization with the
descriptive error. -/
theorem c8_witness :
    (preprocessImage envZ [] "doc.pdf").1 = .error "Could not convert PDF to image" :=
  (c8_pdf_first_page_only envZ [] "doc.pdf" (by decide)).1 rfl

/-- C10: directory expansion matches extensions case-sensitively — an
entry whose name ends in none of the five lowercase extensions (e.g. it
differs only in case) is never in the glob result, in either mode; for
a directory input, the batch is exactly the glob result's paths. -/
theorem c10_case_sensitive_extensions (env : Env) (p : String)
    (entries : List DirEntry) (recursive : Bool) (e : DirEntry)
    (h1 : env.isDir p = some entries) (_h2 : e ∈ entries)
    (h3 : ∀ ext ∈ imageExts, strEndsWith e.2 ext = false) :
    e ∉ dirMatches entries recursive ∧
    collectPaths env (.single p) recursive =
      (dirMatches entries recursive).map (fullPath p) := by
  refine ⟨fun hmem => ?_, by simp [collectPaths, h1]⟩
  rcases List.mem_flatMap.mp hmem with ⟨ext, hext, hfil⟩
  have hb := (List.mem_filter.mp hfil).2
  rw [Bool.and_eq_true] at hb
  rw [h3 ext hext] at hb
  exact Bool.false_ne_true hb.1

/-- C10 witness: IMAGE.PNG, scan.JPG and doc.Pdf are not discovered in
either mode. -/
theorem c10_witness :
    (([], "IMAGE.PNG") : DirEntry) ∉ dirMatches dirK false ∧
    collectPaths envK (.single "d") false = [] ∧
    collectPaths envK (.single "d") true = [] :=
  ⟨(c10_case_sensitive_extensions envK "d" dirK false ([], "IMAGE.PNG") rfl
      (by decide) (by decide)).1,
    by decide, by decide⟩
